import Mathlib

/-!
Verification development for the WordGame repository.

The repository consists of:
- `providers.py`: `OnlineWordProvider`, an online word-acquisition/validation
  client with retries and an in-memory validation cache;
- `wordgame.py`: the `WordGame` engine (round lifecycle, guess pipeline,
  attempt accounting, history) plus string utilities and loading helpers;
- `wordgame_og.py`: the original monolithic script, whose scoring loop counts
  common letters via 26-entry presence maps;
- `app.py`: the GUI layer (out of scope here).

Python strings are modelled as Lean `String` (a structure holding a
`List Char`); `str.upper`/`str.lower` are modelled per character with Lean's
ASCII-only `Char.toUpper`/`Char.toLower`, matching the ASCII words the game
manipulates, and `str.strip` drops whitespace at both ends.  Network
interactions are modelled by passing the remote responses as explicit oracle
arguments; Python `set`s are modelled as lists used only through membership.
-/

namespace WordGameSpec

/-- Model of Python `str.upper`: uppercase every character. -/
def pyUpper (s : String) : String := ⟨s.data.map Char.toUpper⟩

/-- Model of Python `str.lower`: lowercase every character. -/
def pyLower (s : String) : String := ⟨s.data.map Char.toLower⟩

/-- Model of Python `str.strip`: drop whitespace from both ends. -/
def pyStrip (s : String) : String :=
  ⟨((s.data.dropWhile Char.isWhitespace).reverse.dropWhile Char.isWhitespace).reverse⟩

/-- One character of the class `[A-Za-z]` (ASCII letter). -/
def isAsciiLetterB (c : Char) : Bool :=
  (65 ≤ c.toNat && c.toNat ≤ 90) || (97 ≤ c.toNat && c.toNat ≤ 122)

/-- One character of the class `[A-Z]` (ASCII upper-case letter). -/
def isAsciiUpperB (c : Char) : Bool :=
  65 ≤ c.toNat && c.toNat ≤ 90

/-- Embeds `_WORD_RE.match(s)` for `_WORD_RE = re.compile(r"^[A-Za-z]+$")`
from `wordgame.py`: nonempty and all ASCII letters. -/
def wordReMatch (s : String) : Bool :=
  !s.data.isEmpty && s.data.all isAsciiLetterB

/-- Embeds `unique_common_letters(a, b)` from `wordgame.py`:
`len(set(a.upper()) & set(b.upper()))`. -/
def unique_common_letters (a b : String) : Nat :=
  ((pyUpper a).data.toFinset ∩ (pyUpper b).data.toFinset).card

/-! ### The WordService client (`providers.py`) -/

/-- State of an `OnlineWordProvider` instance (`providers.py`).  The two
caches are Python `set`s used only via membership test and insertion, modelled
as lists.  `last_mode` is declared in `__init__` and never assigned elsewhere
in `providers.py`, so it stays `none` for the lifetime of the instance. -/
structure OnlineWordProvider where
  valid_cache : List String := []
  invalid_cache : List String := []
  last_mode : Option String := none
deriving DecidableEq

/-- Outcome of the single dictionary-lookup request inside `is_valid_word`:
either an HTTP response with a status code, or a raised exception
(timeout, network error, or any other exception — all are caught). -/
inductive LookupResponse where
  | status (code : Nat)
  | exc
deriving DecidableEq

/-- Result of one `is_valid_word` call: the returned value, the provider
state after the call, and whether a network request was issued. -/
structure ValidCallResult where
  result : Option Bool
  provider : OnlineWordProvider
  networkCalled : Bool
deriving DecidableEq

/-- Embeds `OnlineWordProvider.is_valid_word(word)`: consult the caches on
`word.upper()` first (no network); otherwise issue the lookup, caching a
definitive `200`/`404` answer and returning `None` for any other status or
exception. -/
def is_valid_word (p : OnlineWordProvider) (word : String) (net : LookupResponse) :
    ValidCallResult :=
  let up := pyUpper word
  if up ∈ p.valid_cache then ⟨some true, p, false⟩
  else if up ∈ p.invalid_cache then ⟨some false, p, false⟩
  else
    match net with
    | .status 200 => ⟨some true, { p with valid_cache := up :: p.valid_cache }, true⟩
    | .status 404 => ⟨some false, { p with invalid_cache := up :: p.invalid_cache }, true⟩
    | .status _ => ⟨none, p, true⟩
    | .exc => ⟨none, p, true⟩

/-- Outcome of one fetch request inside `get_random_word`: a successful HTTP
round-trip carrying the decoded JSON payload (`some ws` when the payload is a
list of strings, `none` when it is not a list), or an exception — timeout,
network error, `raise_for_status`, or a decoding error, which are all caught
and treated alike (retry). -/
inductive FetchResponse where
  | ok (data : Option (List String))
  | exc
deriving DecidableEq

/-- Embeds the retry loop of `OnlineWordProvider.get_random_word(length)`.
Each element of `oracles` is the environment's answer for one loop iteration
(the fetch outcome and, when a candidate word is validated, the lookup
outcome); the list has one entry per iteration, `max_retries` in the code.
`word = data[0].upper() if data and isinstance(data, list) else None`, an
empty payload or empty word retries, a candidate is returned only when
`is_valid_word` answers `True`, and after the last iteration the loop falls
through to `return None`.  The backoff sleeps do not affect the result and
are not modelled. -/
def get_random_word (p : OnlineWordProvider) (length : Int)
    (oracles : List (FetchResponse × LookupResponse)) :
    Option String × OnlineWordProvider :=
  match oracles with
  | [] => (none, p)
  | (f, net) :: rest =>
    match f with
    | .exc => get_random_word p length rest
    | .ok data =>
      match data with
      | some (w :: _) =>
        let word := pyUpper w
        if word.data.isEmpty then get_random_word p length rest
        else
          let r := is_valid_word p word net
          match r.result with
          | some true => (some word, r.provider)
          | _ => get_random_word r.provider length rest
      | _ => get_random_word p length rest

/-! ### The game engine (`wordgame.py`) -/

/-- Embeds the `GuessResult` dataclass. -/
structure GuessResult where
  valid : Bool
  message : String := ""
  common : Option Nat := none
deriving DecidableEq

/-- State of a `WordGame` instance.  `words_by_length` is the
`Dict[int, List[str]]` modelled by its lookup function `.get(length, [])`
(an empty dict and a missing bucket both yield `[]`, which is also how the
code reads it).  `hasProvider` records whether `self.provider is None`.
The `_history` list is called `history` here. -/
structure WordGame where
  words_by_length : Int → List String
  max_attempts : Int := 20
  hasProvider : Bool := false
  connection_mode : Option String := none
  length : Option Int := none
  secret : Option String := none
  attempts_left : Int := 0
  status : String := "idle"
  history : List (String × Nat) := []

/-- Outcome of the `self.provider.get_random_word(length)` call inside
`new_game`: a returned value or a raised exception. -/
inductive ProviderFetch where
  | ret (w : Option String)
  | exc
deriving DecidableEq

/-- Outcome of the `self.provider.is_valid_word(guess)` call inside `guess`:
a returned value or a raised exception. -/
inductive ProviderValid where
  | ret (b : Option Bool)
  | exc
deriving DecidableEq

/-- The word obtained from step 1 of `new_game` (the `self.provider` block):
the value of the local variable `secret` entering step 2, with a falsy `""`
identified with `None` (both leave `connection_mode` unset and trigger the
fallback). -/
def providerSecret (hasProvider : Bool) (pf : ProviderFetch) : Option String :=
  if hasProvider then
    match pf with
    | .ret (some w) => if w.data.isEmpty then none else some w
    | _ => none
  else none

/-- Embeds `WordGame.new_game(length)`.  `pf` is the provider call's outcome
(used only when a provider is attached) and `k` selects the
`random.choice` index into the fallback pool.  The Python method mutates
`self` and either returns `self` or raises `ValueError`; this is modelled by
returning the error or `()` together with the state after the call.
`provider.last_mode` is always `None` (see `OnlineWordProvider`), so
`self.provider.last_mode or "online"` is `"online"` and the fallback's
`(self.provider.last_mode if self.provider else None) or "Offline"` is
`"Offline"`.  A provider word `""` is falsy in Python: it neither sets
`connection_mode` nor suppresses the fallback, exactly like `None`. -/
def new_game (g : WordGame) (length : Int) (pf : ProviderFetch) (k : Nat) :
    Except String Unit × WordGame :=
  if length ≤ 0 then (.error "Please choose a positive word length.", g)
  else
    let g1 := { g with length := some length }
    match providerSecret g.hasProvider pf with
    | some w =>
      (.ok (),
       { g1 with
         connection_mode := some "online"
         secret := some (pyUpper w)
         attempts_left := g.max_attempts
         status := "playing"
         history := [] })
    | none =>
      let pool := g.words_by_length length
      if pool.isEmpty then
        (.error ("No words of length " ++ toString length ++ " found. Try another length."), g1)
      else
        let w := pool.getD (k % pool.length) ""
        (.ok (),
         { g1 with
           connection_mode := some "Offline"
           secret := some (pyUpper w)
           attempts_left := g.max_attempts
           status := "playing"
           history := [] })

/-- The attempt-consuming tail of `WordGame.guess` (from
`common = unique_common_letters(...)` to the final `return`): compute the
feedback, decrement `attempts_left`, append to history, and evaluate the
win/lose transition. -/
def applyValidGuess (g : WordGame) (gu secret : String) : GuessResult × WordGame :=
  let common := unique_common_letters gu secret
  let attempts := g.attempts_left - 1
  let status := if gu = secret then "won" else if attempts ≤ 0 then "lost" else g.status
  (⟨true, "", some common⟩,
   { g with
     attempts_left := attempts
     history := g.history ++ [(gu, common)]
     status := status })

/-- The value of the local variable `is_valid` in `WordGame.guess` right
after the provider block: the provider's answer when one is attached and its
call returned normally, `None` otherwise (no provider, or the call raised).
`used_online = (is_valid is not None)` is exactly `(providerValidation
..).isSome`. -/
def providerValidation (hasProvider : Bool) (pv : ProviderValid) : Option Bool :=
  if hasProvider then
    match pv with
    | .ret b => b
    | .exc => none
  else none

/-- Embeds `WordGame.guess(word)`.  `pv` is the outcome of the provider
validation call (used only when a provider is attached).  Notes tying the
branches to the code: `used_online = (is_valid is not None)` can only be
`True` when the provider returned a definitive answer, in which case the
local-fallback block is skipped entirely; hence inside that block
`used_online` is always `False` and `connection_mode` is set to `"offline"`
whenever the pool is nonempty.  `self.connection_mode = self.provider.
last_mode or self.connection_mode` keeps `connection_mode` unchanged because
`last_mode` is always `None`.  The em-dash message for the character check is
rendered here as plain `A-Z`. -/
def guess (g : WordGame) (word : String) (pv : ProviderValid) :
    GuessResult × WordGame :=
  if g.status ≠ "playing" then (⟨false, "Start a new game first.", none⟩, g)
  else
    match g.length, g.secret with
    | some l, some secret =>
      let gu := pyUpper (pyStrip word)
      if gu.data.isEmpty then (⟨false, "Please enter a guess.", none⟩, g)
      else if wordReMatch gu = false then (⟨false, "Use letters A-Z only.", none⟩, g)
      else if (gu.length : Int) ≠ l then
        (⟨false, "Please enter exactly " ++ toString l ++ " letters.", none⟩, g)
      else if g.history.any (fun h => h.1 = gu) then
        (⟨false, "You already guessed \"" ++ gu ++ "\". Try again.", none⟩, g)
      else
        match providerValidation g.hasProvider pv with
        | some true => applyValidGuess g gu secret
        | some false => (⟨false, "\"" ++ gu ++ "\" is not in the dictionary.", none⟩, g)
        | none =>
          let pool := g.words_by_length l
          if pool.isEmpty then
            (⟨false, "Dictionary unavailable. Check internet or words.txt.", none⟩, g)
          else
            let g' := { g with connection_mode := some "offline" }
            if gu ∈ pool then applyValidGuess g' gu secret
            else (⟨false, "\"" ++ gu ++ "\" is not in the dictionary.", none⟩, g')
    | _, _ => (⟨false, "Game not initialized.", none⟩, g)

/-- Run a sequence of `guess` calls, each with its raw input and its provider
validation outcome. -/
def runGuesses (g : WordGame) (ws : List (String × ProviderValid)) : WordGame :=
  ws.foldl (fun s wp => (guess s wp.1 wp.2).2) g

/-! ### The original script's scoring loop (`wordgame_og.py`) -/

/-- Embeds `alphabets = [chr(i) for i in range(97,123)]`. -/
def alphabets : List Char := (List.range 26).map (fun i => Char.ofNat (97 + i))

/-- Presence flag of the 26-entry maps of `wordgame_og.py`: after
`for i in s.lower(): d[i] = 1`, entry `c` of `d` holds `1` exactly when `c`
occurs in `s.lower()` (and `0` otherwise, as initialized). -/
def flagMap (s : String) (c : Char) : Nat :=
  if c ∈ (pyLower s).data then 1 else 0

/-- Embeds the scoring loop of `wordgame_og.py`: for each of the 26 alphabet
entries, increment `n` when the `choice` flag equals the `guess` flag and the
`guess` flag is nonzero.  (Characters of the inputs outside `a`-`z` are
appended to the maps after the 26 alphabet keys and are never reached by
`for i in range(26)`.) -/
def og_common (guess choice : String) : Nat :=
  (alphabets.filter (fun c => flagMap choice c == flagMap guess c && flagMap guess c != 0)).length

/-! ### Concrete fixtures used to instantiate the theorems -/

/-- A small dictionary map: the 3-letter bucket holds `CAT` and `DOG`, the
4-letter bucket holds `MISS`, every other bucket is empty. -/
def dict34 : Int → List String :=
  fun l => if l = 3 then ["CAT", "DOG"] else if l = 4 then ["MISS"] else []

/-- A fresh engine over `dict34` with a provider attached. -/
def gFresh : WordGame := { words_by_length := dict34, hasProvider := true }

/-- An engine over `dict34` in the middle of a 3-letter round on secret
`CAT`. -/
def gPlaying3 : WordGame :=
  { words_by_length := dict34
    hasProvider := true
    length := some 3
    secret := some "CAT"
    attempts_left := 20
    status := "playing" }

/-- An engine over `dict34` in the middle of a 4-letter round on secret
`MISS`. -/
def gPlaying4 : WordGame :=
  { words_by_length := dict34
    hasProvider := true
    length := some 4
    secret := some "MISS"
    attempts_left := 20
    status := "playing" }

/-- A freshly constructed provider: empty caches, no last mode. -/
def p0 : OnlineWordProvider := {}

/-- A dictionary map is well formed when every word of the bucket for `l`
consists only of upper-case ASCII letters and has exactly `l` of them — the
shape produced by the loading helpers (`_normalize_words` upper-cases
alphabetic tokens and `build_by_length` buckets them by length). -/
def WfDict (wbl : Int → List String) : Prop :=
  ∀ l w, w ∈ wbl l → w.data.all isAsciiUpperB = true ∧ (w.data.length : Int) = l

/-! ### Character-level facts about the ASCII case maps -/

theorem char_toNat_ofNat {n : Nat} (h : n.isValidChar) : (Char.ofNat n).toNat = n := by
  simp [Char.ofNat, dif_pos h, Char.ofNatAux, Char.toNat, UInt32.toNat]

theorem char_eq_iff_toNat {c d : Char} : c = d ↔ c.toNat = d.toNat := by
  constructor
  · intro h; rw [h]
  · intro h; rw [← Char.ofNat_toNat c, h, Char.ofNat_toNat]

theorem toNat_toUpper (c : Char) :
    (Char.toUpper c).toNat = if c.toNat ≥ 97 ∧ c.toNat ≤ 122 then c.toNat - 32 else c.toNat := by
  simp only [Char.toUpper]
  split
  · rename_i h
    exact char_toNat_ofNat (Or.inl (by omega))
  · rfl

theorem toNat_toLower (c : Char) :
    (Char.toLower c).toNat = if c.toNat ≥ 65 ∧ c.toNat ≤ 90 then c.toNat + 32 else c.toNat := by
  simp only [Char.toLower]
  split
  · rename_i h
    exact char_toNat_ofNat (Or.inl (by omega))
  · rfl

theorem toUpper_toUpper (c : Char) : (Char.toUpper c).toUpper = Char.toUpper c := by
  rw [char_eq_iff_toNat]
  simp only [toNat_toUpper]
  split_ifs <;> omega

theorem pyUpper_idem (s : String) : pyUpper (pyUpper s) = pyUpper s := by
  simp only [pyUpper, List.map_map]
  exact congrArg String.mk (List.map_congr_left fun c _ => toUpper_toUpper c)

theorem pyUpper_length (s : String) : (pyUpper s).data.length = s.data.length := by
  simp [pyUpper]

theorem isAsciiLetterB_iff {c : Char} :
    isAsciiLetterB c = true ↔ (65 ≤ c.toNat ∧ c.toNat ≤ 90) ∨ (97 ≤ c.toNat ∧ c.toNat ≤ 122) := by
  simp [isAsciiLetterB, Bool.or_eq_true, Bool.and_eq_true, decide_eq_true_eq]

theorem mem_alphabets_iff {c : Char} : c ∈ alphabets ↔ 97 ≤ c.toNat ∧ c.toNat ≤ 122 := by
  simp only [alphabets, List.mem_map, List.mem_range]
  constructor
  · rintro ⟨i, hi, rfl⟩
    have := char_toNat_ofNat (n := 97 + i) (Or.inl (by omega))
    omega
  · rintro ⟨h1, h2⟩
    refine ⟨c.toNat - 97, by omega, ?_⟩
    have h : 97 + (c.toNat - 97) = c.toNat := by omega
    rw [h, Char.ofNat_toNat]

theorem lower_eq_iff_upper_eq {x l : Char} (hx : isAsciiLetterB x = true)
    (hl : 97 ≤ l.toNat ∧ l.toNat ≤ 122) :
    Char.toLower x = l ↔ Char.toUpper x = Char.toUpper l := by
  rw [char_eq_iff_toNat, char_eq_iff_toNat]
  rw [isAsciiLetterB_iff] at hx
  simp only [toNat_toLower, toNat_toUpper]
  split_ifs <;> omega

theorem mem_pyLower_iff_mem_pyUpper {a : String} (ha : a.data.all isAsciiLetterB = true)
    {l : Char} (hl : 97 ≤ l.toNat ∧ l.toNat ≤ 122) :
    (l ∈ (pyLower a).data) ↔ (Char.toUpper l ∈ (pyUpper a).data) := by
  simp only [pyLower, pyUpper, List.mem_map]
  rw [List.all_eq_true] at ha
  constructor
  · rintro ⟨x, hxa, rfl⟩
    exact ⟨x, hxa, (lower_eq_iff_upper_eq (ha x hxa) hl).1 rfl⟩
  · rintro ⟨x, hxa, hx⟩
    exact ⟨x, hxa, (lower_eq_iff_upper_eq (ha x hxa) hl).2 hx⟩

theorem toNat_toUpper_of_letter {x : Char} (hx : isAsciiLetterB x = true) :
    65 ≤ (Char.toUpper x).toNat ∧ (Char.toUpper x).toNat ≤ 90 := by
  rw [isAsciiLetterB_iff] at hx
  simp only [toNat_toUpper]
  split_ifs <;> omega

theorem mem_alphabets_map_toUpper {u : Char} :
    u ∈ alphabets.map Char.toUpper ↔ 65 ≤ u.toNat ∧ u.toNat ≤ 90 := by
  simp only [List.mem_map]
  constructor
  · rintro ⟨l, hmem, rfl⟩
    have hb := mem_alphabets_iff.1 hmem
    simp only [toNat_toUpper]
    split_ifs <;> omega
  · rintro ⟨h1, h2⟩
    refine ⟨Char.ofNat (u.toNat + 32), ?_, ?_⟩
    · rw [mem_alphabets_iff, char_toNat_ofNat (Or.inl (by omega))]
      omega
    · rw [char_eq_iff_toNat]
      simp only [toNat_toUpper]
      rw [char_toNat_ofNat (Or.inl (by omega))]
      split_ifs <;> omega

theorem toUpper_of_upper {c : Char} (h : isAsciiUpperB c = true) : Char.toUpper c = c := by
  have hb : 65 ≤ c.toNat ∧ c.toNat ≤ 90 := by
    simpa [isAsciiUpperB, Bool.and_eq_true, decide_eq_true_eq] using h
  rw [char_eq_iff_toNat]
  simp only [toNat_toUpper]
  split_ifs <;> omega

theorem pyUpper_of_upper {w : String} (h : w.data.all isAsciiUpperB = true) : pyUpper w = w := by
  have hall := List.all_eq_true.1 h
  cases w with
  | mk l =>
    exact congrArg String.mk
      ((List.map_congr_left fun c hc => toUpper_of_upper (hall c hc)).trans (List.map_id l))

/-! ### Frame and invariant lemmas about the engine operations -/

theorem guess_preserves_secret_length (g : WordGame) (w : String) (pv : ProviderValid) :
    (guess g w pv).2.secret = g.secret ∧ (guess g w pv).2.length = g.length := by
  simp only [guess, applyValidGuess]
  repeat' split
  all_goals exact ⟨rfl, rfl⟩

theorem guess_attempts_mono (g : WordGame) (w : String) (pv : ProviderValid) :
    (guess g w pv).2.attempts_left ≤ g.attempts_left := by
  simp only [guess, applyValidGuess]
  repeat' split
  all_goals dsimp only
  all_goals omega

/-- The attempt-count invariant maintained across a round: `attempts_left`
is non-negative, and strictly positive while the round is still playing. -/
def AttemptsInv (g : WordGame) : Prop :=
  0 ≤ g.attempts_left ∧ (g.status = "playing" → 1 ≤ g.attempts_left)

theorem guess_attempts_inv (g : WordGame) (w : String) (pv : ProviderValid)
    (h : AttemptsInv g) : AttemptsInv (guess g w pv).2 := by
  obtain ⟨h0, h1⟩ := h
  simp only [guess, applyValidGuess, AttemptsInv]
  repeat' split
  all_goals refine ⟨?_, ?_⟩ <;> try intro hp
  all_goals simp_all
  all_goals omega

theorem runGuesses_secret_length (g : WordGame) (ws : List (String × ProviderValid)) :
    (runGuesses g ws).secret = g.secret ∧ (runGuesses g ws).length = g.length := by
  induction ws generalizing g with
  | nil => exact ⟨rfl, rfl⟩
  | cons wp ws ih =>
    have h := guess_preserves_secret_length g wp.1 wp.2
    have h2 := ih (guess g wp.1 wp.2).2
    simp only [runGuesses, List.foldl_cons] at h2 ⊢
    exact ⟨h2.1.trans h.1, h2.2.trans h.2⟩

theorem runGuesses_attempts_inv (g : WordGame) (ws : List (String × ProviderValid))
    (h : AttemptsInv g) : AttemptsInv (runGuesses g ws) := by
  induction ws generalizing g with
  | nil => exact h
  | cons wp ws ih =>
    have h2 := ih (guess g wp.1 wp.2).2 (guess_attempts_inv g wp.1 wp.2 h)
    simpa only [runGuesses, List.foldl_cons] using h2

theorem new_game_ok_state (g : WordGame) (len : Int) (pf : ProviderFetch) (k : Nat)
    (h : (new_game g len pf k).1 = .ok ()) :
    (new_game g len pf k).2.attempts_left = g.max_attempts ∧
    (new_game g len pf k).2.status = "playing" := by
  revert h
  simp only [new_game]
  repeat' split
  all_goals intro h
  all_goals first
    | exact ⟨rfl, rfl⟩
    | simp at h

theorem new_game_local (g : WordGame) (len : Int) (pf : ProviderFetch) (k : Nat)
    (hpf : providerSecret g.hasProvider pf = none) (hlen : 0 < len) :
    (g.words_by_length len = [] →
      new_game g len pf k =
        (.error ("No words of length " ++ toString len ++ " found. Try another length."),
         { g with length := some len })) ∧
    (g.words_by_length len ≠ [] →
      ∃ w ∈ g.words_by_length len,
        new_game g len pf k =
          (.ok (),
           { g with
             length := some len
             connection_mode := some "Offline"
             secret := some (pyUpper w)
             attempts_left := g.max_attempts
             status := "playing"
             history := [] })) := by
  simp only [new_game, hpf]
  rw [if_neg (by omega)]
  constructor
  · intro hpool
    simp [hpool]
  · intro hpool
    rw [if_neg (by simpa [List.isEmpty_iff] using hpool)]
    refine ⟨(g.words_by_length len).getD (k % (g.words_by_length len).length) "", ?_, rfl⟩
    have hlt : k % (g.words_by_length len).length < (g.words_by_length len).length :=
      Nat.mod_lt _ (List.length_pos.2 hpool)
    rw [List.getD_eq_getElem _ _ hlt]
    exact List.getElem_mem hlt

theorem dict34_wf : WfDict dict34 := by
  intro l w hw
  simp only [dict34] at hw
  split at hw
  · rename_i h
    subst h
    simp only [List.mem_cons, List.not_mem_nil, or_false] at hw
    rcases hw with rfl | rfl
    · exact ⟨by decide, by decide⟩
    · exact ⟨by decide, by decide⟩
  · split at hw
    · rename_i h
      subst h
      simp only [List.mem_cons, List.not_mem_nil, or_false] at hw
      subst hw
      exact ⟨by decide, by decide⟩
    · cases hw

theorem is_valid_word_true_mem (p : OnlineWordProvider) (word : String) (net : LookupResponse)
    (h : (is_valid_word p word net).result = some true) :
    pyUpper word ∈ (is_valid_word p word net).provider.valid_cache := by
  revert h
  simp only [is_valid_word]
  repeat' split
  all_goals intro h
  all_goals simp_all

/-! ### Claim theorems -/

/-- C7: for every word whose first `is_valid_word` call resolved definitively
(`True` or `False`), a second call with the same word in any letter case
returns the same answer immediately from the cache and performs no network
call. -/
theorem is_valid_word_cache_idempotent (p : OnlineWordProvider) (w w2 : String)
    (net1 net2 : LookupResponse) (b : Bool)
    (hcase : pyUpper w2 = pyUpper w)
    (h : (is_valid_word p w net1).result = some b) :
    (is_valid_word (is_valid_word p w net1).provider w2 net2).result = some b ∧
    (is_valid_word (is_valid_word p w net1).provider w2 net2).networkCalled = false := by
  revert h
  simp only [is_valid_word, hcase]
  repeat' split
  all_goals intro h
  all_goals simp_all [List.mem_cons]

/-- Witness for C7: validating `hello` over the network (status 200), then
re-validating `HELLO`, answers `True` from the cache without a second
network call. -/
theorem is_valid_word_cache_idempotent_witness :
    (is_valid_word (is_valid_word p0 "hello" (.status 200)).provider "HELLO" .exc).result
      = some true ∧
    (is_valid_word (is_valid_word p0 "hello" (.status 200)).provider "HELLO" .exc).networkCalled
      = false :=
  is_valid_word_cache_idempotent p0 "hello" "HELLO" (.status 200) .exc true
    (by decide) (by decide)

/-- C8: every `guess` call returning an invalid outcome leaves
`attempts_left` and `history` unchanged. -/
theorem invalid_guess_frame (g : WordGame) (w : String) (pv : ProviderValid)
    (h : (guess g w pv).1.valid = false) :
    (guess g w pv).2.attempts_left = g.attempts_left ∧
    (guess g w pv).2.history = g.history := by
  revert h
  simp only [guess, applyValidGuess]
  repeat' split
  all_goals intro h
  all_goals first
    | exact ⟨rfl, rfl⟩
    | simp at h

/-- Witness for C8: guessing before any round started is invalid and
changes neither the attempt budget nor the history. -/
theorem invalid_guess_frame_witness :
    (guess gFresh "HELLO" (.ret none)).2.attempts_left = gFresh.attempts_left ∧
    (guess gFresh "HELLO" (.ret none)).2.history = gFresh.history :=
  invalid_guess_frame gFresh "HELLO" (.ret none) (by decide)

/-- C9: once a round is started by a successful `new_game` (with the
positive `max_attempts` the data model prescribes), `attempts_left` stays
non-negative along any sequence of guesses and never increases at the next
guess. -/
theorem attempts_left_monotone_nonneg (g : WordGame) (len : Int) (pf : ProviderFetch)
    (k : Nat) (ws : List (String × ProviderValid)) (w : String) (pv : ProviderValid)
    (hmax : 1 ≤ g.max_attempts)
    (hok : (new_game g len pf k).1 = .ok ()) :
    0 ≤ (runGuesses (new_game g len pf k).2 ws).attempts_left ∧
    (guess (runGuesses (new_game g len pf k).2 ws) w pv).2.attempts_left
      ≤ (runGuesses (new_game g len pf k).2 ws).attempts_left := by
  obtain ⟨ha, hs⟩ := new_game_ok_state g len pf k hok
  have hinv : AttemptsInv (new_game g len pf k).2 := ⟨by omega, fun _ => by omega⟩
  have h2 := runGuesses_attempts_inv _ ws hinv
  exact ⟨h2.1, guess_attempts_mono _ w pv⟩

/-- Witness for C9: starting a 4-letter round on the fixture and winning it
with `MISS`, the attempt counter stays non-negative and does not increase at
a further guess. -/
theorem attempts_left_monotone_nonneg_witness :
    0 ≤ (runGuesses (new_game gFresh 4 .exc 0).2 [("MISS", .ret (some true))]).attempts_left ∧
    (guess (runGuesses (new_game gFresh 4 .exc 0).2 [("MISS", .ret (some true))])
        "MASK" (.ret (some true))).2.attempts_left
      ≤ (runGuesses (new_game gFresh 4 .exc 0).2 [("MISS", .ret (some true))]).attempts_left :=
  attempts_left_monotone_nonneg gFresh 4 .exc 0 [("MISS", .ret (some true))]
    "MASK" (.ret (some true)) (by decide) (by rfl)

/-- C10: for all strings consisting only of letters, the 26-entry
alphabet-flag counting loop of `wordgame_og.py` computes the same value as
`unique_common_letters` of `wordgame.py`. -/
theorem og_loop_refines_unique_common_letters (a b : String)
    (ha : a.data.all isAsciiLetterB = true) (hb : b.data.all isAsciiLetterB = true) :
    og_common a b = unique_common_letters a b := by
  have halla : ∀ x ∈ a.data, isAsciiLetterB x = true := List.all_eq_true.1 ha
  have hqU : ∀ u : Char, u ∈ (pyUpper a).data → 65 ≤ u.toNat ∧ u.toNat ≤ 90 := by
    intro u hu
    simp only [pyUpper, List.mem_map] at hu
    obtain ⟨x, hx, rfl⟩ := hu
    exact toNat_toUpper_of_letter (halla x hx)
  set q : Char → Bool :=
    fun u => decide (u ∈ (pyUpper a).data) && decide (u ∈ (pyUpper b).data) with hq
  have hset : (pyUpper a).data.toFinset ∩ (pyUpper b).data.toFinset
      = ((alphabets.map Char.toUpper).filter q).toFinset := by
    ext u
    simp only [Finset.mem_inter, List.mem_toFinset, List.mem_filter, hq,
      Bool.and_eq_true, decide_eq_true_eq]
    constructor
    · rintro ⟨h1, h2⟩
      exact ⟨mem_alphabets_map_toUpper.2 (hqU u h1), h1, h2⟩
    · rintro ⟨_, h1, h2⟩
      exact ⟨h1, h2⟩
  have hnd : ((alphabets.map Char.toUpper).filter q).Nodup :=
    List.Nodup.filter _ (by decide)
  have hpt : ∀ c ∈ alphabets,
      (flagMap b c == flagMap a c && flagMap a c != 0) = q (Char.toUpper c) := by
    intro c hc
    have hcb := mem_alphabets_iff.1 hc
    have hA := mem_pyLower_iff_mem_pyUpper ha hcb
    have hB := mem_pyLower_iff_mem_pyUpper hb hcb
    simp only [hq, flagMap]
    by_cases h1 : c ∈ (pyLower a).data <;> by_cases h2 : c ∈ (pyLower b).data <;>
      simp [h1, h2, hA.symm, hB.symm, ← hA, ← hB]
  calc og_common a b
      = (alphabets.filter (fun c => q (Char.toUpper c))).length := by
        unfold og_common
        rw [List.filter_congr hpt]
    _ = ((alphabets.map Char.toUpper).filter q).length := by
        rw [List.filter_map, List.length_map]
        rfl
    _ = ((alphabets.map Char.toUpper).filter q).toFinset.card :=
        (List.toFinset_card_of_nodup hnd).symm
    _ = unique_common_letters a b := by
        rw [← hset]; rfl

/-- Witness for C10 at `a = "MASK"`, `b = "MISS"`: both counts equal 2. -/
theorem og_loop_refines_unique_common_letters_witness :
    og_common "MASK" "MISS" = unique_common_letters "MASK" "MISS" ∧
    unique_common_letters "MASK" "MISS" = 2 :=
  ⟨og_loop_refines_unique_common_letters "MASK" "MISS" (by decide) (by decide), by decide⟩

/-- C1 counterexample: on the fixture engine, with a provider attached whose
fetch raises, `new_game 4` silently starts the round with a word drawn from
the local dictionary instead of failing. -/
theorem new_game_local_fallback_cex :
    gFresh.hasProvider = true ∧
    (new_game gFresh 4 .exc 0).1 = .ok () ∧
    (new_game gFresh 4 .exc 0).2.status = "playing" ∧
    (new_game gFresh 4 .exc 0).2.secret = some "MISS" :=
  ⟨by decide, by rfl, by decide, by decide⟩

/-- C1 as amended: when the provider supplies no word, `new_game` falls back
to the local dictionary — it surfaces a failure (and starts no round) only
when the local bucket for the requested length is also empty; otherwise the
round starts silently on a locally chosen word, with `connection_mode`
`"Offline"`. -/
theorem new_game_fallback_behavior (g : WordGame) (len : Int) (pf : ProviderFetch) (k : Nat)
    (hp : g.hasProvider = true)
    (hpf : providerSecret g.hasProvider pf = none) (hlen : 0 < len) :
    (g.words_by_length len = [] →
      (new_game g len pf k).1 =
        .error ("No words of length " ++ toString len ++ " found. Try another length.")) ∧
    (g.words_by_length len ≠ [] →
      (new_game g len pf k).1 = .ok () ∧
      (new_game g len pf k).2.status = "playing" ∧
      (new_game g len pf k).2.connection_mode = some "Offline" ∧
      ∃ w ∈ g.words_by_length len, (new_game g len pf k).2.secret = some (pyUpper w)) := by
  obtain ⟨hemp, hne⟩ := new_game_local g len pf k hpf hlen
  constructor
  · intro hpool
    rw [hemp hpool]
  · intro hpool
    obtain ⟨w, hw, hEq⟩ := hne hpool
    rw [hEq]
    exact ⟨rfl, rfl, rfl, ⟨w, hw, rfl⟩⟩

/-- Witness for C1 (amended) on the fixture engine at length 4 with a
raising provider. -/
theorem new_game_fallback_behavior_witness :
    (gFresh.words_by_length 4 = [] →
      (new_game gFresh 4 .exc 0).1 =
        .error ("No words of length " ++ toString (4 : Int) ++ " found. Try another length.")) ∧
    (gFresh.words_by_length 4 ≠ [] →
      (new_game gFresh 4 .exc 0).1 = .ok () ∧
      (new_game gFresh 4 .exc 0).2.status = "playing" ∧
      (new_game gFresh 4 .exc 0).2.connection_mode = some "Offline" ∧
      ∃ w ∈ gFresh.words_by_length 4, (new_game gFresh 4 .exc 0).2.secret = some (pyUpper w)) :=
  new_game_fallback_behavior gFresh 4 .exc 0 (by decide) (by decide) (by decide)

/-- C3 counterexample: a failing `new_game 7` during a 3-letter round raises,
but overwrites the engine's `length` field with 7 while keeping the old
3-letter secret — prior state is not left unchanged. -/
theorem new_game_failure_mutates_length_cex :
    (new_game gPlaying3 7 .exc 0).1
      = .error "No words of length 7 found. Try another length." ∧
    gPlaying3.length = some 3 ∧
    (new_game gPlaying3 7 .exc 0).2.length = some 7 ∧
    (new_game gPlaying3 7 .exc 0).2.secret = some "CAT" :=
  ⟨by rfl, by decide, by decide, by decide⟩

/-- C3 as amended: when `new_game` fails, `secret`, `status`,
`attempts_left`, `history`, `connection_mode` and the rest of the state are
unchanged, but for a positive requested length the `length` field has
already been overwritten with the new length (for a non-positive length the
state is fully unchanged). -/
theorem new_game_error_frame (g : WordGame) (len : Int) (pf : ProviderFetch) (k : Nat)
    (m : String) (h : (new_game g len pf k).1 = .error m) :
    (len ≤ 0 → (new_game g len pf k).2 = g) ∧
    (0 < len → (new_game g len pf k).2 = { g with length := some len }) := by
  revert h
  simp only [new_game]
  repeat' split
  all_goals intro h
  all_goals first
    | (refine ⟨fun hl => ?_, fun hl => ?_⟩ <;> first | rfl | omega)
    | simp at h

/-- Witness for C3 (amended): the failing call of the counterexample state
leaves everything but `length` unchanged. -/
theorem new_game_error_frame_witness :
    ((7 : Int) ≤ 0 → (new_game gPlaying3 7 .exc 0).2 = gPlaying3) ∧
    (0 < (7 : Int) → (new_game gPlaying3 7 .exc 0).2 = { gPlaying3 with length := some 7 }) :=
  new_game_error_frame gPlaying3 7 .exc 0
    "No words of length 7 found. Try another length." (by rfl)

/-- C5 counterexample: two `new_game` calls (a successful 4-letter round,
then a failing 7-letter request) reach a state whose secret `MISS` has 4
letters while the `length` field says 7. -/
theorem secret_length_invariant_cex :
    (new_game (new_game gFresh 4 (.ret none) 0).2 7 (.ret none) 0).2.secret = some "MISS" ∧
    (new_game (new_game gFresh 4 (.ret none) 0).2 7 (.ret none) 0).2.length = some 7 ∧
    ("MISS".data.length : Int) ≠ 7 :=
  ⟨by decide, by decide, by decide⟩

/-- C5 as amended: within a single round — a successful `new_game` whose
secret came from a well-formed local dictionary, followed by any sequence of
guesses — a non-null secret consists only of upper-case letters and the
`length` field equals its letter count.  (A failing `new_game` breaks the
correspondence by overwriting `length`, and a provider-supplied word is used
without a length check.) -/
theorem secret_wellformed_after_round (g : WordGame) (len : Int) (pf : ProviderFetch)
    (k : Nat) (ws : List (String × ProviderValid)) (s : String)
    (hwf : WfDict g.words_by_length)
    (hpf : providerSecret g.hasProvider pf = none)
    (hok : (new_game g len pf k).1 = .ok ())
    (hsec : (runGuesses (new_game g len pf k).2 ws).secret = some s) :
    s.data.all isAsciiUpperB = true ∧
    (runGuesses (new_game g len pf k).2 ws).length = some (s.data.length : Int) := by
  have hlen : 0 < len := by
    rcases lt_or_le 0 len with h | h
    · exact h
    · rw [new_game, if_pos h] at hok
      simp at hok
  obtain ⟨herr, hloc⟩ := new_game_local g len pf k hpf hlen
  by_cases hpool : g.words_by_length len = []
  · rw [herr hpool] at hok
    simp at hok
  · obtain ⟨w, hw, hEq⟩ := hloc hpool
    obtain ⟨hup, hwlen⟩ := hwf len w hw
    have hps := runGuesses_secret_length (new_game g len pf k).2 ws
    have hs1 : (runGuesses (new_game g len pf k).2 ws).secret = some (pyUpper w) := by
      rw [hps.1, hEq]
    have hl1 : (runGuesses (new_game g len pf k).2 ws).length = some len := by
      rw [hps.2, hEq]
    rw [hs1] at hsec
    have hws : w = s := by
      have h2 : pyUpper w = s := Option.some.inj hsec
      rw [pyUpper_of_upper hup] at h2
      exact h2
    subst hws
    exact ⟨hup, by rw [hl1, hwlen]⟩

/-- Witness for C5 (amended) on the fixture: the 4-letter round holds secret
`MISS`, all upper-case, with `length` 4. -/
theorem secret_wellformed_after_round_witness :
    ("MISS".data.all isAsciiUpperB = true) ∧
    (runGuesses (new_game gFresh 4 (.ret none) 0).2 []).length
      = some ("MISS".data.length : Int) :=
  secret_wellformed_after_round gFresh 4 (.ret none) 0 [] "MISS"
    (by simpa only [gFresh] using dict34_wf) (by decide) (by rfl) (by decide)

/-- C2 counterexample: with the provider's validation Indeterminate
(`is_valid_word` returned `None`), guessing `DOG` — present in the local
3-letter pool — is accepted as a valid guess and consumes an attempt,
contradicting "invalid outcome, no attempt consumed". -/
theorem guess_indeterminate_consumes_attempt_cex :
    providerValidation gPlaying3.hasProvider (.ret none) = none ∧
    (guess gPlaying3 "DOG" (.ret none)).1.valid = true ∧
    gPlaying3.attempts_left = 20 ∧
    (guess gPlaying3 "DOG" (.ret none)).2.attempts_left = 19 :=
  ⟨by decide, by decide, by decide, by decide⟩

/-- C2 as amended: an Indeterminate dictionary validation falls back to the
local dictionary.  Only when the local pool for the round's length is empty
is the outcome the transient "Dictionary unavailable. Check internet or
words.txt." rejection (distinct from the "not in the dictionary" message)
with no attempt consumed and history unchanged; with a non-empty pool the
guess is validated locally — consuming an attempt when present in the pool,
and rejected with the ordinary "not in the dictionary" message otherwise. -/
theorem guess_indeterminate_local_fallback (g : WordGame) (w : String) (pv : ProviderValid)
    (l : Int) (s gu : String)
    (hst : g.status = "playing") (hl : g.length = some l) (hs : g.secret = some s)
    (hgu : pyUpper (pyStrip w) = gu)
    (hne : gu.data.isEmpty = false) (hre : wordReMatch gu = true)
    (hlen : (gu.length : Int) = l)
    (hdup : (g.history.any fun h => h.1 = gu) = false)
    (hind : providerValidation g.hasProvider pv = none) :
    (g.words_by_length l = [] →
      guess g w pv =
        (⟨false, "Dictionary unavailable. Check internet or words.txt.", none⟩, g)) ∧
    (gu ∈ g.words_by_length l →
      (guess g w pv).1.valid = true ∧
      (guess g w pv).2.attempts_left = g.attempts_left - 1 ∧
      (guess g w pv).2.history = g.history ++ [(gu, unique_common_letters gu s)]) ∧
    (g.words_by_length l ≠ [] → gu ∉ g.words_by_length l →
      guess g w pv =
        (⟨false, "\"" ++ gu ++ "\" is not in the dictionary.", none⟩,
         { g with connection_mode := some "offline" })) := by
  refine ⟨fun hpool => ?_, fun hmem => ?_, fun hpool hnot => ?_⟩
  · simp [guess, hst, hl, hs, hgu, hne, hre, hlen, hdup, hind, hpool]
  · have hpool := List.ne_nil_of_mem hmem
    simp [guess, applyValidGuess, hst, hl, hs, hgu, hne, hre, hlen, hdup, hind,
      hmem, List.isEmpty_iff, hpool]
  · simp [guess, hst, hl, hs, hgu, hne, hre, hlen, hdup, hind,
      hnot, List.isEmpty_iff, hpool]

/-- Witness for C2 (amended) on the 3-letter fixture round with guess `bat`
and an Indeterminate provider validation. -/
theorem guess_indeterminate_local_fallback_witness :
    (gPlaying3.words_by_length 3 = [] →
      guess gPlaying3 "bat" (.ret none) =
        (⟨false, "Dictionary unavailable. Check internet or words.txt.", none⟩, gPlaying3)) ∧
    ("BAT" ∈ gPlaying3.words_by_length 3 →
      (guess gPlaying3 "bat" (.ret none)).1.valid = true ∧
      (guess gPlaying3 "bat" (.ret none)).2.attempts_left = gPlaying3.attempts_left - 1 ∧
      (guess gPlaying3 "bat" (.ret none)).2.history
        = gPlaying3.history ++ [("BAT", unique_common_letters "BAT" "CAT")]) ∧
    (gPlaying3.words_by_length 3 ≠ [] → "BAT" ∉ gPlaying3.words_by_length 3 →
      guess gPlaying3 "bat" (.ret none) =
        (⟨false, "\"" ++ "BAT" ++ "\" is not in the dictionary.", none⟩,
         { gPlaying3 with connection_mode := some "offline" })) :=
  guess_indeterminate_local_fallback gPlaying3 "bat" (.ret none) 3 "CAT" "BAT"
    (by decide) (by decide) (by decide) (by decide) (by decide) (by decide)
    (by decide) (by decide) (by decide)

/-- C4 counterexample: requesting a 5-letter word, the service answers with
the 3-letter `abc`, the dictionary lookup confirms it, and `get_random_word`
returns `ABC` — the client never re-checks the length. -/
theorem get_random_word_wrong_length_cex :
    (get_random_word p0 5 [(.ok (some ["abc"]), .status 200)]).1 = some "ABC" ∧
    ("ABC".data.length : Int) = 3 :=
  ⟨by decide, by decide⟩

/-- C4 as amended: a word returned by `get_random_word` is upper-cased and
positively confirmed by `is_valid_word` (it sits in the final valid cache);
its length equals the requested length only under the additional assumption
that every fetched candidate has the requested length — the client itself
performs no length check. -/
theorem get_random_word_success_spec (p : OnlineWordProvider) (len : Int)
    (oracles : List (FetchResponse × LookupResponse)) (w : String) (p' : OnlineWordProvider)
    (h : get_random_word p len oracles = (some w, p')) :
    pyUpper w = w ∧ w ∈ p'.valid_cache ∧
    ((∀ fr ∈ oracles, ∀ x xs, fr.1 = FetchResponse.ok (some (x :: xs)) →
        (x.data.length : Int) = len) →
      (w.data.length : Int) = len) := by
  induction oracles generalizing p with
  | nil => simp [get_random_word] at h
  | cons o rest ih =>
    obtain ⟨f, net⟩ := o
    have wrap : ∀ q : OnlineWordProvider, get_random_word q len rest = (some w, p') →
        pyUpper w = w ∧ w ∈ p'.valid_cache ∧
        ((∀ fr ∈ (f, net) :: rest, ∀ x xs, fr.1 = FetchResponse.ok (some (x :: xs)) →
            (x.data.length : Int) = len) →
          (w.data.length : Int) = len) := by
      intro q hq
      obtain ⟨h1, h2, h3⟩ := ih q hq
      exact ⟨h1, h2, fun hl => h3 fun fr hfr => hl fr (List.mem_cons_of_mem _ hfr)⟩
    cases f with
    | exc => exact wrap _ (by simpa [get_random_word] using h)
    | ok data =>
      rcases data with _ | ws
      · exact wrap _ (by simpa [get_random_word] using h)
      · rcases ws with _ | ⟨x, xs⟩
        · exact wrap _ (by simpa [get_random_word] using h)
        · simp only [get_random_word] at h
          by_cases hemp : (pyUpper x).data.isEmpty = true
          · rw [if_pos hemp] at h
            exact wrap _ h
          · rw [if_neg hemp] at h
            rcases hres : (is_valid_word p (pyUpper x) net).result with _ | b
            · simp only [hres] at h
              exact wrap _ h
            · cases b with
              | false =>
                simp only [hres] at h
                exact wrap _ h
              | true =>
                simp only [hres] at h
                have hw : some (pyUpper x) = some w := congrArg Prod.fst h
                have hp : (is_valid_word p (pyUpper x) net).provider = p' :=
                  congrArg Prod.snd h
                obtain rfl : pyUpper x = w := Option.some.inj hw
                subst hp
                refine ⟨pyUpper_idem x, ?_, ?_⟩
                · have hmem := is_valid_word_true_mem p (pyUpper x) net hres
                  rwa [pyUpper_idem x] at hmem
                · intro hl
                  have hx := hl (FetchResponse.ok (some (x :: xs)), net)
                    (List.mem_cons_self _ _) x xs rfl
                  rw [pyUpper]
                  simpa using hx

/-- Witness for C4 (amended): fetching `mouse` for length 5 and validating
it over the network yields the upper-cased, cached, 5-letter `MOUSE`. -/
theorem get_random_word_success_spec_witness :
    pyUpper "MOUSE" = "MOUSE" ∧
    "MOUSE" ∈ (get_random_word p0 5 [(.ok (some ["mouse"]), .status 200)]).2.valid_cache ∧
    ((∀ fr ∈ [((FetchResponse.ok (some ["mouse"]) : FetchResponse), LookupResponse.status 200)],
        ∀ x xs, fr.1 = FetchResponse.ok (some (x :: xs)) → (x.data.length : Int) = 5) →
      (("MOUSE").data.length : Int) = 5) :=
  get_random_word_success_spec p0 5 [(.ok (some ["mouse"]), .status 200)] "MOUSE"
    (get_random_word p0 5 [(.ok (some ["mouse"]), .status 200)]).2
    (by decide)

/-- C6 counterexample: guessing the exact secret `MISS` wins the round, but
the recorded common count is 3 (the number of distinct letters of `MISS`),
not the round length 4. -/
theorem winning_common_count_cex :
    (guess gPlaying4 "MISS" (.ret (some true))).2.status = "won" ∧
    (guess gPlaying4 "MISS" (.ret (some true))).1.common = some 3 ∧
    gPlaying4.length = some 4 ∧ (3 : Nat) ≠ 4 :=
  ⟨by decide, by decide, by decide, by decide⟩

/-- C6 as amended: in a playing round, submitting a guess that normalizes to
the secret, with the dictionary validation confirming it, transitions the
status to `won` and appends exactly one history entry whose common count is
`unique_common_letters secret secret` — the number of distinct letters of
the secret (which equals the length only when the secret has no repeated
letters). -/
theorem guess_secret_wins (g : WordGame) (w : String) (pv : ProviderValid)
    (l : Int) (s : String)
    (hst : g.status = "playing") (hl : g.length = some l) (hs : g.secret = some s)
    (hgu : pyUpper (pyStrip w) = s)
    (hne : s.data.isEmpty = false) (hre : wordReMatch s = true)
    (hlen : (s.length : Int) = l)
    (hdup : (g.history.any fun h => h.1 = s) = false)
    (hval : providerValidation g.hasProvider pv = some true) :
    (guess g w pv).1.valid = true ∧
    (guess g w pv).2.status = "won" ∧
    (guess g w pv).2.history = g.history ++ [(s, unique_common_letters s s)] ∧
    (guess g w pv).1.common = some (unique_common_letters s s) ∧
    unique_common_letters s s = (pyUpper s).data.toFinset.card := by
  refine ⟨?_, ?_, ?_, ?_, ?_⟩
  all_goals simp [guess, applyValidGuess, hst, hl, hs, hgu, hne, hre, hlen, hdup, hval,
    unique_common_letters, Finset.inter_self]

/-- Witness for C6 (amended) on the 4-letter fixture round, guessing the
secret `MISS` with the provider confirming it. -/
theorem guess_secret_wins_witness :
    (guess gPlaying4 "MISS" (.ret (some true))).1.valid = true ∧
    (guess gPlaying4 "MISS" (.ret (some true))).2.status = "won" ∧
    (guess gPlaying4 "MISS" (.ret (some true))).2.history
      = gPlaying4.history ++ [("MISS", unique_common_letters "MISS" "MISS")] ∧
    (guess gPlaying4 "MISS" (.ret (some true))).1.common
      = some (unique_common_letters "MISS" "MISS") ∧
    unique_common_letters "MISS" "MISS" = (pyUpper "MISS").data.toFinset.card :=
  guess_secret_wins gPlaying4 "MISS" (.ret (some true)) 4 "MISS"
    (by decide) (by decide) (by decide) (by decide) (by decide) (by decide)
    (by decide) (by decide) (by decide)

end WordGameSpec
